import Mathlib

/-!
Verification development for the CXQL tree-sitter grammar
(`grammar.js`, Phase 8 variant).  The grammar is embedded as an
executable recursive-descent parser over character lists, following the
rule set verbatim: statement forms (`let_statement`, `connect_statement`,
`expression_statement`), the eleven precedence levels of the expression
grammar (`prec.left`/`prec.right` annotations), the declared GLR conflict
between `block` and `record_literal` resolved by `prec.dynamic 1` in
favour of the record, and the Phase-8 f-string rules.  Whitespace and
`#`-comments are `extras`, skipped between any two tokens.
-/

namespace CXQL

/-- Key of a record `property`: `choice($.identifier, $.string_literal)`. -/
inductive PropKey where
  | id (name : String)
  | strKey (content : String)
deriving DecidableEq, Repr

mutual
/-- Abstract syntax of CXQL expressions, one constructor per named node of
the grammar's expression rules. -/
inductive Expr where
  | numberLit (lexeme : String)
  | stringLit (content : String)
  | booleanLit (value : Bool)
  | nullLit
  | identifier (name : String)
  | variableRef (name : String)
  | binary (op : String) (left right : Expr)
  | unaryNeg (operand : Expr)
  | logicalNot (operand : Expr)
  | pipe (left right : Expr)
  | arrow (param : String) (body : Expr)
  | member (obj : Expr) (prop : String)
  | call (fn : Expr) (args : List Arg)
  | paren (inner : Expr)
  | listLit (elems : List Expr)
  | recordLit (props : List (PropKey × Expr))
  | blockExpr (lets : List (String × Expr)) (result : Option Expr)
  | ifExpr (condition consequent : Expr) (alternative : Option Expr)
  | fstringLit (parts : List FPart)
deriving Repr

/-- One entry of an `argument_list`: `choice($._expression, $.keyword_argument)`. -/
inductive Arg where
  | positional (e : Expr)
  | keyword (name : String) (value : Expr)
deriving Repr

/-- One child of an `fstring_literal`: `choice($.fstring_text, $.fstring_interpolation)`. -/
inductive FPart where
  | text (s : String)
  | interpolation (e : Expr)
deriving Repr
end

/-- Statements: `choice($.let_statement, $.connect_statement, $.expression_statement)`. -/
inductive Stmt where
  | letStmt (name : String) (value : Expr)
  | connectStmt (source : Expr) (aliasName : String)
  | exprStmt (e : Expr)
deriving Repr

/-- Whitespace characters matched by the `extras` pattern. -/
def isWsChar (c : Char) : Bool :=
  c = ' ' || c = '\t' || c = '\n' || c = '\r'

/-- First character of an `identifier` token: the set `[a-zA-Z]`. -/
def isAlphaChar (c : Char) : Bool :=
  ('a' ≤ c && c ≤ 'z') || ('A' ≤ c && c ≤ 'Z')

/-- Decimal digit, as used by `number_literal`. -/
def isDigitChar (c : Char) : Bool :=
  '0' ≤ c && c ≤ '9'

/-- Continuation character of an `identifier` token: `[a-zA-Z0-9_-]`. -/
def isIdentChar (c : Char) : Bool :=
  isAlphaChar c || isDigitChar c || c = '_' || c = '-'

/-- Skip `extras` (whitespace and `#`-comments); the flag records whether
the scan is inside a `comment` token, which runs to end of line. -/
def skipWsAux : Bool → List Char → List Char
  | _, [] => []
  | true, c :: rest =>
    if c = '\n' then skipWsAux false rest else skipWsAux true rest
  | false, c :: rest =>
    if isWsChar c then skipWsAux false rest
    else if c = '#' then skipWsAux true rest
    else c :: rest

/-- Skip `extras`: whitespace and `#`-comments, in any interleaving. -/
def skipWs (l : List Char) : List Char :=
  skipWsAux false l

/-- Match an exact character sequence, returning the remaining input. -/
def matchChars : List Char → List Char → Option (List Char)
  | [], input => some input
  | _ :: _, [] => none
  | c :: cs, d :: input => if c = d then matchChars cs input else none

/-- Match a keyword token: the exact spelling, not followed by a further
identifier character (tree-sitter keyword extraction via `word`). -/
def matchWord (w : String) (input : List Char) : Option (List Char) :=
  match matchChars w.toList input with
  | none => none
  | some rest =>
    match rest with
    | [] => some []
    | c :: _ => if isIdentChar c then none else some rest

/-- Lex an `identifier` token: `/[a-zA-Z][a-zA-Z0-9_-]*/`, maximal munch. -/
def lexIdent (input : List Char) : Option (String × List Char) :=
  match input with
  | [] => none
  | c :: rest =>
    if isAlphaChar c then
      some (String.mk (c :: rest.takeWhile isIdentChar), rest.dropWhile isIdentChar)
    else none

/-- Longest run of decimal digits plus the remaining input. -/
def lexDigits (input : List Char) : List Char × List Char :=
  (input.takeWhile isDigitChar, input.dropWhile isDigitChar)

/-- Exponent part of `number_literal`: `[eE][+-]?[0-9]+`. -/
def lexExponentPart (input : List Char) : Option (List Char × List Char) :=
  match input with
  | [] => none
  | c :: rest =>
    if c = 'e' || c = 'E' then
      match rest with
      | [] => none
      | s :: rest2 =>
        if s = '+' || s = '-' then
          match lexDigits rest2 with
          | ([], _) => none
          | (ds, r) => some (c :: s :: ds, r)
        else
          match lexDigits rest with
          | ([], _) => none
          | (ds, r) => some (c :: ds, r)
    else none

/-- Lex a `number_literal` token: `decimal`, `decimal "." decimal exponent?`,
or `decimal exponent`, maximal munch. -/
def lexNumber (input : List Char) : Option (String × List Char) :=
  match lexDigits input with
  | ([], _) => none
  | (ds, rest) =>
    let fracState : List Char × List Char :=
      match rest with
      | '.' :: r2 =>
        match lexDigits r2 with
        | ([], _) => ([], rest)
        | (fs, r3) => ('.' :: fs, r3)
      | _ => ([], rest)
    match lexExponentPart fracState.2 with
    | some (es, r4) => some (String.mk (ds ++ fracState.1 ++ es), r4)
    | none => some (String.mk (ds ++ fracState.1), fracState.2)

/-- Body of a `string_literal` after the opening quote:
`repeat(choice(/[^"\\]/, /\\./))` then the closing quote.  Returns the
content (escapes kept verbatim) and the remaining input. -/
def lexStringBody : List Char → Option (List Char × List Char)
  | [] => none
  | c :: rest =>
    if c = '"' then some ([], rest)
    else if c = '\\' then
      match rest with
      | [] => none
      | d :: rest2 =>
        match lexStringBody rest2 with
        | none => none
        | some (cs, r) => some (c :: d :: cs, r)
    else
      match lexStringBody rest with
      | none => none
      | some (cs, r) => some (c :: cs, r)

/-- Lex a `string_literal` token (double-quoted only in the grammar). -/
def lexString (input : List Char) : Option (String × List Char) :=
  match input with
  | '"' :: rest =>
    match lexStringBody rest with
    | some (cs, r) => some (String.mk cs, r)
    | none => none
  | _ => none

/-- Match a lone `=` token, rejecting the longer tokens `==` and `=>`
(maximal munch at the lexer level). -/
def matchEq (input : List Char) : Option (List Char) :=
  match input with
  | '=' :: '=' :: _ => none
  | '=' :: '>' :: _ => none
  | '=' :: rest => some rest
  | _ => none

/-- Binary-operator levels, copied from the grammar's `prec.left`
annotations in `binary_expression` and `pipe_expression`:
multiplicative 7, additive 6 (shared by the pipe `|`), comparison 5,
equality 4, `and` 2, `or` 1. -/
def binOpLevel : String → Option Nat
  | "*" | "/" | "%" => some 7
  | "+" | "-" | "|" => some 6
  | "<" | ">" | "<=" | ">=" => some 5
  | "==" | "!=" => some 4
  | "and" => some 2
  | "or" => some 1
  | _ => none

/-- Peek the next infix operator token, maximal munch on two-character
operators; word operators require a keyword boundary. -/
def peekBinOp (input : List Char) : Option (String × List Char) :=
  match input with
  | '=' :: '=' :: rest => some ("==", rest)
  | '!' :: '=' :: rest => some ("!=", rest)
  | '<' :: '=' :: rest => some ("<=", rest)
  | '>' :: '=' :: rest => some (">=", rest)
  | '<' :: rest => some ("<", rest)
  | '>' :: rest => some (">", rest)
  | '+' :: rest => some ("+", rest)
  | '-' :: rest => some ("-", rest)
  | '*' :: rest => some ("*", rest)
  | '/' :: rest => some ("/", rest)
  | '%' :: rest => some ("%", rest)
  | '|' :: rest => some ("|", rest)
  | other =>
    match matchWord "and" other with
    | some rest => some ("and", rest)
    | none =>
      match matchWord "or" other with
      | some rest => some ("or", rest)
      | none => none

mutual

/-- `_expression` at a minimum binding level: parse one operand at the
unary level, then climb through the infix levels.  `minPrec 0` is the
full `_expression` rule. -/
def parseExpr (fuel : Nat) (minPrec : Nat) (input : List Char) : Option (Expr × List Char) :=
  match fuel with
  | 0 => none
  | n + 1 =>
    match parseUnaryLevel n input with
    | none => none
    | some (lhs, rest) => parseBinLoop n minPrec lhs rest

/-- The prefix operators: `unary_expression` (`prec.right 8`, operand at
level 8) and `logical_not_expression` (`prec.right 3`, operand at
level 3); otherwise a primary expression with its postfix operators. -/
def parseUnaryLevel (fuel : Nat) (input : List Char) : Option (Expr × List Char) :=
  match fuel with
  | 0 => none
  | n + 1 =>
    match skipWs input with
    | '-' :: rest =>
      match parseExpr n 8 rest with
      | some (e, r) => some (.unaryNeg e, r)
      | none => none
    | other =>
      match matchWord "not" other with
      | some rest =>
        match parseExpr n 3 rest with
        | some (e, r) => some (.logicalNot e, r)
        | none => none
      | none =>
        match parseAtom n other with
        | some (e, r) => parsePostOps n e r
        | none => none

/-- Infix climbing loop.  `arrow_expression` is `prec.right 0` with a bare
identifier parameter; every operator of `binary_expression` and
`pipe_expression` is `prec.left` at its `binOpLevel`, so a left operand
recurses at `level + 1`. -/
def parseBinLoop (fuel : Nat) (minPrec : Nat) (lhs : Expr) (input : List Char) : Option (Expr × List Char) :=
  match fuel with
  | 0 => none
  | n + 1 =>
    match skipWs input with
    | '=' :: '>' :: rest =>
      if minPrec = 0 then
        match lhs with
        | .identifier param =>
          match parseExpr n 0 rest with
          | some (body, r2) => parseBinLoop n minPrec (.arrow param body) r2
          | none => none
        | _ => some (lhs, input)
      else some (lhs, input)
    | other =>
      match peekBinOp other with
      | some (op, rest) =>
        match binOpLevel op with
        | some p =>
          if minPrec ≤ p then
            match parseExpr n (p + 1) rest with
            | some (rhs, r2) =>
              parseBinLoop n minPrec
                (if op = "|" then Expr.pipe lhs rhs else Expr.binary op lhs rhs) r2
            | none => none
          else some (lhs, input)
        | none => some (lhs, input)
      | none => some (lhs, input)

/-- Postfix operators on a primary expression: `member_expression`
(`prec 10`, `"." identifier`) and `function_call` (`prec 9`, an
`argument_list`), iterated to allow chains such as `a.b(c).d`. -/
def parsePostOps (fuel : Nat) (e : Expr) (input : List Char) : Option (Expr × List Char) :=
  match fuel with
  | 0 => none
  | n + 1 =>
    match skipWs input with
    | '.' :: rest =>
      match lexIdent (skipWs rest) with
      | some (name, r2) => parsePostOps n (.member e name) r2
      | none => some (e, input)
    | '(' :: rest =>
      match parseArgList n rest with
      | some (args, r2) => parsePostOps n (.call e args) r2
      | none => none
    | _ => some (e, input)

/-- `argument_list` after the opening parenthesis: optional comma-separated
arguments with an optional trailing comma, then `)`. -/
def parseArgList (fuel : Nat) (input : List Char) : Option (List Arg × List Char) :=
  match fuel with
  | 0 => none
  | n + 1 =>
    match skipWs input with
    | ')' :: rest => some ([], rest)
    | other => parseArgItems n other

/-- Nonempty argument sequence: `choice(expression, keyword_argument)`
separated by commas, `optional(",")` before the closing parenthesis. -/
def parseArgItems (fuel : Nat) (input : List Char) : Option (List Arg × List Char) :=
  match fuel with
  | 0 => none
  | n + 1 =>
    match parseArgItem n input with
    | none => none
    | some (a, r) =>
      match skipWs r with
      | ',' :: rest =>
        match skipWs rest with
        | ')' :: rest3 => some ([a], rest3)
        | rest2 =>
          match parseArgItems n rest2 with
          | some (as, r2) => some (a :: as, r2)
          | none => none
      | ')' :: rest => some ([a], rest)
      | _ => none

/-- One argument: `keyword_argument` is `identifier "=" expression`, and a
lone `=` token distinguishes it from an expression argument (maximal
munch keeps `==` and `=>` out). -/
def parseArgItem (fuel : Nat) (input : List Char) : Option (Arg × List Char) :=
  match fuel with
  | 0 => none
  | n + 1 =>
    let r := skipWs input
    match lexIdent r with
    | some (name, r1) =>
      match matchEq (skipWs r1) with
      | some r3 =>
        match parseExpr n 0 r3 with
        | some (v, r4) => some (.keyword name v, r4)
        | none => none
      | none =>
        match parseExpr n 0 r with
        | some (e, r4) => some (.positional e, r4)
        | none => none
    | none =>
      match parseExpr n 0 r with
      | some (e, r4) => some (.positional e, r4)
      | none => none

/-- `list_literal` elements after the opening bracket: optional
comma-separated expressions with optional trailing comma, then `]`. -/
def parseListElems (fuel : Nat) (input : List Char) : Option (List Expr × List Char) :=
  match fuel with
  | 0 => none
  | n + 1 =>
    match skipWs input with
    | ']' :: rest => some ([], rest)
    | other => parseElemItems n other

/-- Nonempty list-element sequence with optional trailing comma. -/
def parseElemItems (fuel : Nat) (input : List Char) : Option (List Expr × List Char) :=
  match fuel with
  | 0 => none
  | n + 1 =>
    match parseExpr n 0 input with
    | none => none
    | some (e, r) =>
      match skipWs r with
      | ',' :: rest =>
        match skipWs rest with
        | ']' :: rest3 => some ([e], rest3)
        | rest2 =>
          match parseElemItems n rest2 with
          | some (es, r2) => some (e :: es, r2)
          | none => none
      | ']' :: rest => some ([e], rest)
      | _ => none

/-- `record_literal` contents after the opening brace: optional
comma-separated properties with optional trailing comma, then `}`. -/
def parseRecordTail (fuel : Nat) (input : List Char) : Option (List (PropKey × Expr) × List Char) :=
  match fuel with
  | 0 => none
  | n + 1 =>
    match skipWs input with
    | '}' :: rest => some ([], rest)
    | other => parsePropItems n other

/-- Nonempty property sequence with optional trailing comma. -/
def parsePropItems (fuel : Nat) (input : List Char) : Option (List (PropKey × Expr) × List Char) :=
  match fuel with
  | 0 => none
  | n + 1 =>
    match parseProp n input with
    | none => none
    | some (p, r) =>
      match skipWs r with
      | ',' :: rest =>
        match skipWs rest with
        | '}' :: rest3 => some ([p], rest3)
        | rest2 =>
          match parsePropItems n rest2 with
          | some (ps, r2) => some (p :: ps, r2)
          | none => none
      | '}' :: rest => some ([p], rest)
      | _ => none

/-- `property`: `field("key", choice(identifier, string_literal)) ":" value`. -/
def parseProp (fuel : Nat) (input : List Char) : Option ((PropKey × Expr) × List Char) :=
  match fuel with
  | 0 => none
  | n + 1 =>
    let r := skipWs input
    let keyOpt : Option (PropKey × List Char) :=
      match lexIdent r with
      | some (name, r1) => some (.id name, r1)
      | none =>
        match lexString r with
        | some (s, r1) => some (.strKey s, r1)
        | none => none
    match keyOpt with
    | none => none
    | some (k, r1) =>
      match skipWs r1 with
      | ':' :: r3 =>
        match parseExpr n 0 r3 with
        | some (v, r4) => some ((k, v), r4)
        | none => none
      | _ => none

/-- `let_statement`: `"let" identifier "=" expression` (also the block
body's statement form). -/
def parseLetBinding (fuel : Nat) (input : List Char) : Option ((String × Expr) × List Char) :=
  match fuel with
  | 0 => none
  | n + 1 =>
    match matchWord "let" (skipWs input) with
    | none => none
    | some r1 =>
      match lexIdent (skipWs r1) with
      | none => none
      | some (name, r2) =>
        match matchEq (skipWs r2) with
        | none => none
        | some r3 =>
          match parseExpr n 0 r3 with
          | some (v, r4) => some ((name, v), r4)
          | none => none

/-- Zero or more `let_statement`s, the `repeat1($.let_statement)` part of
`_block_body` (with zero occurrences allowed for the other alternatives). -/
def parseLets (fuel : Nat) (input : List Char) : List (String × Expr) × List Char :=
  match fuel with
  | 0 => ([], input)
  | n + 1 =>
    match parseLetBinding n input with
    | none => ([], input)
    | some (b, r) =>
      match parseLets n r with
      | (bs, r2) => (b :: bs, r2)

/-- `block` contents after the opening brace: `optional(_block_body)` then
`}`, where `_block_body` is let statements and/or a final result
expression.  Keyword extraction applies here as at statement level: in a
block-body state the word `let` lexes as the `let` keyword (it has
actions there), so a failed `let_statement` is an error, not a fallback
to an identifier expression. -/
def parseBlockTail (fuel : Nat) (input : List Char) : Option (Expr × List Char) :=
  match fuel with
  | 0 => none
  | n + 1 =>
    match parseLets n input with
    | (lets, r) =>
      match skipWs r with
      | '}' :: rest => some (.blockExpr lets none, rest)
      | r1 =>
        match matchWord "let" r1 with
        | some _ => none
        | none =>
          match parseExpr n 0 r1 with
          | some (e, r2) =>
            match skipWs r2 with
            | '}' :: rest => some (.blockExpr lets (some e), rest)
            | _ => none
          | none => none

/-- A `block` including its braces, as required by the `if_expression`
fields (the grammar demands `$.block` there, never a record). -/
def parseBraceBlock (fuel : Nat) (input : List Char) : Option (Expr × List Char) :=
  match fuel with
  | 0 => none
  | n + 1 =>
    match skipWs input with
    | '{' :: rest => parseBlockTail n rest
    | _ => none

/-- `if_expression` after the `if` keyword: condition block, consequent
block, `optional(seq("else", block))`. -/
def parseIfTail (fuel : Nat) (input : List Char) : Option (Expr × List Char) :=
  match fuel with
  | 0 => none
  | n + 1 =>
    match parseBraceBlock n input with
    | none => none
    | some (c, r1) =>
      match parseBraceBlock n r1 with
      | none => none
      | some (t, r2) =>
        match matchWord "else" (skipWs r2) with
        | some r3 =>
          match parseBraceBlock n r3 with
          | some (e, r4) => some (.ifExpr c t (some e), r4)
          | none => none
        | none => some (.ifExpr c t none, r2)

/-- Children of an `fstring_literal` after the opening `$"` token:
`repeat(choice(fstring_text, fstring_interpolation))` then the closing
quote.  `fstring_text` is `token.immediate(/[^\x7b"]+/)`, so no extras are
skipped inside text mode; interpolations re-enter the full expression
grammar. -/
def parseFParts (fuel : Nat) (input : List Char) : Option (List FPart × List Char) :=
  match fuel with
  | 0 => none
  | n + 1 =>
    match input with
    | [] => none
    | '"' :: rest => some ([], rest)
    | '{' :: rest =>
      match parseExpr n 0 rest with
      | none => none
      | some (e, r1) =>
        match skipWs r1 with
        | '}' :: r2 =>
          match parseFParts n r2 with
          | some (ps, r3) => some (.interpolation e :: ps, r3)
          | none => none
        | _ => none
    | c :: rest =>
      match parseFParts n (rest.dropWhile (fun d => d ≠ '{' && d ≠ '"')) with
      | some (ps, r3) =>
        some (.text (String.mk (c :: rest.takeWhile (fun d => d ≠ '{' && d ≠ '"'))) :: ps, r3)
      | none => none

/-- `_primary_expression` dispatch.  On `{` the declared GLR conflict
between `block` and `record_literal` is resolved exactly as
`prec.dynamic 1` dictates: the record parse wins whenever it succeeds
(the only input both rules accept is the empty `\x7b\x7d`), otherwise the
block parse is used. -/
def parseAtom (fuel : Nat) (input : List Char) : Option (Expr × List Char) :=
  match fuel with
  | 0 => none
  | n + 1 =>
    match skipWs input with
    | [] => none
    | '(' :: rest =>
      match parseExpr n 0 rest with
      | some (e, r1) =>
        match skipWs r1 with
        | ')' :: r2 => some (.paren e, r2)
        | _ => none
      | none => none
    | '[' :: rest =>
      match parseListElems n rest with
      | some (es, r1) => some (.listLit es, r1)
      | none => none
    | '{' :: rest =>
      match parseRecordTail n rest with
      | some (ps, r1) => some (.recordLit ps, r1)
      | none => parseBlockTail n rest
    | '$' :: '"' :: rest =>
      match parseFParts n rest with
      | some (ps, r1) => some (.fstringLit ps, r1)
      | none => none
    | '$' :: rest =>
      match lexIdent (skipWs rest) with
      | some (name, r1) => some (.variableRef name, r1)
      | none => none
    | '"' :: rest =>
      match lexStringBody rest with
      | some (cs, r1) => some (.stringLit (String.mk cs), r1)
      | none => none
    | c :: rest =>
      if isDigitChar c then
        match lexNumber (c :: rest) with
        | some (s, r1) => some (.numberLit s, r1)
        | none => none
      else
        match matchWord "if" (c :: rest) with
        | some r1 => parseIfTail n r1
        | none =>
          match matchWord "true" (c :: rest) with
          | some r1 => some (.booleanLit true, r1)
          | none =>
            match matchWord "false" (c :: rest) with
            | some r1 => some (.booleanLit false, r1)
            | none =>
              match matchWord "null" (c :: rest) with
              | some r1 => some (.nullLit, r1)
              | none =>
                match lexIdent (c :: rest) with
                | some (name, r1) => some (.identifier name, r1)
                | none => none

end

/-- `connect_statement`:
`"connect" "(" source "," "as" "=" string_literal ")"`. -/
def parseConnect (fuel : Nat) (input : List Char) : Option (Stmt × List Char) :=
  match fuel with
  | 0 => none
  | n + 1 =>
    match matchWord "connect" input with
    | none => none
    | some r1 =>
      match skipWs r1 with
      | '(' :: r2 =>
        match parseExpr n 0 r2 with
        | none => none
        | some (src, r3) =>
          match skipWs r3 with
          | ',' :: r4 =>
            match matchWord "as" (skipWs r4) with
            | none => none
            | some r5 =>
              match matchEq (skipWs r5) with
              | none => none
              | some r6 =>
                match lexString (skipWs r6) with
                | none => none
                | some (a, r7) =>
                  match skipWs r7 with
                  | ')' :: r8 => some (.connectStmt src a, r8)
                  | _ => none
          | _ => none
      | _ => none

/-- `_statement`: choice of `let_statement`, `connect_statement` and
`expression_statement`.  Because the grammar declares
`word: $.identifier`, keyword extraction applies: at statement start the
words `let` and `connect` lex as their keyword tokens (both have actions
in that state), never as identifiers, so a statement beginning with one
of them is committed to that statement form and fails if the rest does
not match - there is no re-parse of the word as an identifier. -/
def parseStmt (fuel : Nat) (input : List Char) : Option (Stmt × List Char) :=
  match fuel with
  | 0 => none
  | n + 1 =>
    let r := skipWs input
    match matchWord "let" r with
    | some _ =>
      match parseLetBinding n r with
      | some ((name, v), r1) => some (.letStmt name v, r1)
      | none => none
    | none =>
      match matchWord "connect" r with
      | some _ => parseConnect n r
      | none =>
        match parseExpr n 0 r with
        | some (e, r1) => some (.exprStmt e, r1)
        | none => none

/-- `program`: `repeat($._statement)` until end of input; `none` models a
parse with at least one syntax error. -/
def parseProgram (fuel : Nat) (input : List Char) : Option (List Stmt) :=
  match fuel with
  | 0 => none
  | n + 1 =>
    match skipWs input with
    | [] => some []
    | r =>
      match parseStmt n r with
      | none => none
      | some (s, r1) =>
        match parseProgram n r1 with
        | some ss => some (s :: ss)
        | none => none

/-- Parse a CXQL source text into its statement list; `none` is a parse
with syntax errors. -/
def parseCXQL (s : String) : Option (List Stmt) :=
  parseProgram (8 * s.length + 64) s.toList

/-- The input `'hello'` in single quotes, built character by character
(codepoint 39 is the single-quote character). -/
def singleQuotedHello : String :=
  String.mk [Char.ofNat 39, 'h', 'e', 'l', 'l', 'o', Char.ofNat 39]

/-- C1: the empty braces input is disambiguated by context and never a
syntax error: `\x7b\x7d` as a function-call argument, a list element, or a
let-bound value is a `RecordLiteral`; as the condition, consequent, or
alternative of an `if` expression it is an empty `Block`. -/
theorem c1_empty_braces_contextual_disambiguation :
    parseCXQL "f(\x7b\x7d)" =
      some [Stmt.exprStmt (Expr.call (Expr.identifier "f")
        [Arg.positional (Expr.recordLit [])])] ∧
    parseCXQL "[\x7b\x7d]" =
      some [Stmt.exprStmt (Expr.listLit [Expr.recordLit []])] ∧
    parseCXQL "let x = \x7b\x7d" =
      some [Stmt.letStmt "x" (Expr.recordLit [])] ∧
    parseCXQL "if \x7b\x7d \x7b\x7d" =
      some [Stmt.exprStmt (Expr.ifExpr (Expr.blockExpr [] none)
        (Expr.blockExpr [] none) none)] ∧
    parseCXQL "if \x7b\x7d \x7b\x7d else \x7b\x7d" =
      some [Stmt.exprStmt (Expr.ifExpr (Expr.blockExpr [] none)
        (Expr.blockExpr [] none) (some (Expr.blockExpr [] none)))] :=
  ⟨rfl, rfl, rfl, rfl, rfl⟩

/-- C2: parsing `2 + 3 * 4` yields `+` at the root with the
multiplication `3 * 4` as its right child, i.e. `2 + (3 * 4)`. -/
theorem c2_multiplication_binds_tighter :
    parseCXQL "2 + 3 * 4" =
      some [Stmt.exprStmt (Expr.binary "+" (Expr.numberLit "2")
        (Expr.binary "*" (Expr.numberLit "3") (Expr.numberLit "4")))] :=
  rfl

/-- C3: the additive level is left-associative, `8 - 3 - 2` parses as
`(8 - 3) - 2`; the arrow is right-associative, `a => b => a + b` parses
as `a => (b => (a + b))`. -/
theorem c3_additive_left_arrow_right_assoc :
    parseCXQL "8 - 3 - 2" =
      some [Stmt.exprStmt (Expr.binary "-"
        (Expr.binary "-" (Expr.numberLit "8") (Expr.numberLit "3"))
        (Expr.numberLit "2"))] ∧
    parseCXQL "a => b => a + b" =
      some [Stmt.exprStmt (Expr.arrow "a" (Expr.arrow "b"
        (Expr.binary "+" (Expr.identifier "a") (Expr.identifier "b"))))] :=
  ⟨rfl, rfl⟩

/-- C4: the pipeline operator sits at level 6, the additive level, and is
left-associative: the three-stage pipeline nests to the left, with
`fetch(url)` first, `parse()` second, and an arrow expression as the sole
positional argument of the third stage. -/
theorem c4_pipeline_level6_left_chaining :
    binOpLevel "|" = some 6 ∧ binOpLevel "+" = some 6 ∧ binOpLevel "-" = some 6 ∧
    parseCXQL "fetch(url) | parse() | filter(x => x.active)" =
      some [Stmt.exprStmt (Expr.pipe
        (Expr.pipe
          (Expr.call (Expr.identifier "fetch") [Arg.positional (Expr.identifier "url")])
          (Expr.call (Expr.identifier "parse") []))
        (Expr.call (Expr.identifier "filter")
          [Arg.positional (Expr.arrow "x"
            (Expr.member (Expr.identifier "x") "active"))]))] :=
  ⟨rfl, rfl, rfl, rfl⟩

/-- C5: the f-string input parses to an `FStringLiteral` with exactly two
children in order: the text segment `Total: ` and an interpolation whose
expression is the full pipeline `items | sum()`. -/
theorem c5_fstring_text_then_pipeline_interpolation :
    parseCXQL "$\"Total: \x7bitems | sum()\x7d\"" =
      some [Stmt.exprStmt (Expr.fstringLit
        [FPart.text "Total: ",
         FPart.interpolation (Expr.pipe (Expr.identifier "items")
           (Expr.call (Expr.identifier "sum") []))])] :=
  rfl

/-- C6 counterexample: the grammar's `argument_list` has no labeled-block
alternative, so `f(where \x7b a: 1 \x7d)` is a syntax error, refuting the
claim that it parses into a call with a labeled-block argument. -/
theorem c6_counterexample_labeled_block_rejected :
    parseCXQL "f(where \x7b a: 1 \x7d)" = none :=
  rfl

/-- C6 amended: the parenthesized argument list accepts, in any order,
bare expressions as positional arguments and `name = expr` keyword
arguments (with trailing comma); it has no labeled-block form, so
`label \x7b ... \x7d` arguments such as `where` or `set` blocks are
syntax errors. -/
theorem c6_amended_argument_list_forms :
    parseCXQL "f(1, name = 2, 3,)" =
      some [Stmt.exprStmt (Expr.call (Expr.identifier "f")
        [Arg.positional (Expr.numberLit "1"),
         Arg.keyword "name" (Expr.numberLit "2"),
         Arg.positional (Expr.numberLit "3")])] ∧
    parseCXQL "f(where \x7b a: 1 \x7d)" = none ∧
    parseCXQL "f(set \x7b x: 2 \x7d)" = none ∧
    parseCXQL "f(params \x7b\x7d)" = none :=
  ⟨rfl, rfl, rfl, rfl⟩

/-- C7 counterexample: `string_literal` is double-quoted only, so the
single-quoted input `'hello'` is a syntax error and no string token is
produced for it. -/
theorem c7_counterexample_single_quotes_rejected :
    parseCXQL singleQuotedHello = none :=
  rfl

/-- C7 amended: string tokens are double-quoted only: `"hello"` parses to
a string literal, while the single-quoted `'hello'` is a syntax error. -/
theorem c7_amended_strings_double_quoted_only :
    parseCXQL "\"hello\"" = some [Stmt.exprStmt (Expr.stringLit "hello")] ∧
    parseCXQL singleQuotedHello = none :=
  ⟨rfl, rfl⟩

/-- C8 counterexample: `variable_reference` is the two-token sequence
`"$" identifier` and whitespace is an extra, so `$ name` with a space is
accepted and produces a `VariableReference` covering both tokens,
refuting the claim that no such node is produced. -/
theorem c8_counterexample_space_after_dollar_accepted :
    parseCXQL "$ name" = some [Stmt.exprStmt (Expr.variableRef "name")] :=
  rfl

/-- C8 amended: `$name` produces exactly one `VariableReference`, and
because `$` and the identifier are separate tokens with whitespace among
the extras, `$ name` with intervening whitespace does too; `$` not
followed by an identifier is a syntax error. -/
theorem c8_amended_variable_reference_tokens :
    parseCXQL "$name" = some [Stmt.exprStmt (Expr.variableRef "name")] ∧
    parseCXQL "$ name" = some [Stmt.exprStmt (Expr.variableRef "name")] ∧
    parseCXQL "$1" = none :=
  ⟨rfl, rfl, rfl⟩

/-- C9: trailing commas are permitted and never required in each
comma-separated list form: list elements, function-call arguments, and
record properties parse to structurally identical nodes with and without
the trailing comma; in particular `[1, 2, 3,]` and `[1, 2, 3]` yield
identical `ListLiteral` nodes. -/
theorem c9_trailing_commas_optional :
    parseCXQL "[1, 2, 3,]" =
      some [Stmt.exprStmt (Expr.listLit
        [Expr.numberLit "1", Expr.numberLit "2", Expr.numberLit "3"])] ∧
    parseCXQL "[1, 2, 3]" =
      some [Stmt.exprStmt (Expr.listLit
        [Expr.numberLit "1", Expr.numberLit "2", Expr.numberLit "3"])] ∧
    parseCXQL "f(1, 2,)" =
      some [Stmt.exprStmt (Expr.call (Expr.identifier "f")
        [Arg.positional (Expr.numberLit "1"), Arg.positional (Expr.numberLit "2")])] ∧
    parseCXQL "f(1, 2)" =
      some [Stmt.exprStmt (Expr.call (Expr.identifier "f")
        [Arg.positional (Expr.numberLit "1"), Arg.positional (Expr.numberLit "2")])] ∧
    parseCXQL "\x7ba: 1, b: 2,\x7d" =
      some [Stmt.exprStmt (Expr.recordLit
        [(PropKey.id "a", Expr.numberLit "1"), (PropKey.id "b", Expr.numberLit "2")])] ∧
    parseCXQL "\x7ba: 1, b: 2\x7d" =
      some [Stmt.exprStmt (Expr.recordLit
        [(PropKey.id "a", Expr.numberLit "1"), (PropKey.id "b", Expr.numberLit "2")])] :=
  ⟨rfl, rfl, rfl, rfl, rfl, rfl⟩

/-- C10: a `ConnectStatement` is accepted exactly in the parenthesized
keyword form `connect ( expr , as = string-literal )`, with any
expression as source.  Keyword extraction commits a statement-start
`connect` to `connect_statement`, so the unparenthesized form
`connect db as "db"` and any connect with a non-string-literal alias
(identifier or number) are syntax errors. -/
theorem c10_connect_surface_form :
    parseCXQL "connect(fetch(url), as = \"db\")" =
      some [Stmt.connectStmt
        (Expr.call (Expr.identifier "fetch") [Arg.positional (Expr.identifier "url")])
        "db"] ∧
    parseCXQL "connect db as \"db\"" = none ∧
    parseCXQL "connect(db, as = alias)" = none ∧
    parseCXQL "connect(db, as = 42)" = none :=
  ⟨rfl, rfl, rfl, rfl⟩

end CXQL
